import Mathlib

/-!
Shallow embedding of the sc_log_analyzer log ingestion, classification and
filtering pipeline (src/main.rs). A log line is a `List Char`. Each Rust
regex is translated into a deterministic parser that backtracks exactly at
the points where the regex engine backtracks: the lazy `.*?` scans (a scan
tries the literal at every position from the left, and retries later
positions when the continuation fails) and the optional `(?:...)?` groups
(the group is tried first, the empty alternative second). Greedy character
classes `[^X]+` followed by a delimiter in `X` are deterministic (maximal
munch), and greedy `\s*` or `\s+` followed by a non-whitespace literal is
likewise deterministic; the three places where greediness does backtrack —
the class backtracking into a following `\s` in the SpawnReservation
grammar, the `\s*` giving a character back to the `[^,]+` nickname capture
in the StatusEffect grammar, and the greedy `\s*(.+)` tail of the
StatusEffect grammar — are translated with their exact backtracking
behaviour. Timestamps (chrono `DateTime<Utc>`) are modelled
as nanoseconds since the Unix epoch (`Int`); chrono's RFC 3339 parser is
modelled field by field (leap seconds are not modelled). Rust library
semantics modelled here: `char::is_whitespace` / regex `\s` use the
Unicode White_Space set; `to_lowercase` is modelled on the ASCII range
(no claim depends on non-ASCII case folding); `String::from_utf8_lossy`
follows the standard UTF-8 validation with U+FFFD substitution.
-/

set_option maxRecDepth 10000

namespace SCLog

abbrev LC := List Char

/-- Unicode White_Space, as used by Rust char::is_whitespace and regex \s. -/
def isWs (c : Char) : Bool :=
  let n := c.toNat
  n == 0x09 || n == 0x0A || n == 0x0B || n == 0x0C || n == 0x0D || n == 0x20 ||
  n == 0x85 || n == 0xA0 || n == 0x1680 ||
  (decide (0x2000 ≤ n) && decide (n ≤ 0x200A)) ||
  n == 0x2028 || n == 0x2029 || n == 0x202F || n == 0x205F || n == 0x3000

/-- ASCII word characters; regex \b and \w are Unicode-aware in the Rust
regex crate, but no claim depends on non-ASCII word characters. -/
def isWordChar (c : Char) : Bool :=
  let n := c.toNat
  (decide (0x41 ≤ n) && decide (n ≤ 0x5A)) ||
  (decide (0x61 ≤ n) && decide (n ≤ 0x7A)) ||
  (decide (0x30 ≤ n) && decide (n ≤ 0x39)) || n == 0x5F

def isDigitChar (c : Char) : Bool :=
  decide (0x30 ≤ c.toNat) && decide (c.toNat ≤ 0x39)

/-- Rust char::to_ascii_lowercase. -/
def asciiLower (c : Char) : Char :=
  if 0x41 ≤ c.toNat ∧ c.toNat ≤ 0x5A then Char.ofNat (c.toNat + 32) else c

/-- Rust str::to_ascii_lowercase (also models String::to_lowercase on the
ASCII range). -/
def lowerAscii (s : LC) : LC := s.map asciiLower

/-- Rust str::eq_ignore_ascii_case. -/
def eqIgnoreAsciiCase (a b : LC) : Bool := lowerAscii a == lowerAscii b

/-- Rust str::trim (both ends, char::is_whitespace). -/
def trimWs (s : LC) : LC :=
  ((s.dropWhile isWs).reverse.dropWhile isWs).reverse

/-- Drop a literal from the front of the input: regex literal text. -/
def dropLit : LC → LC → Option LC
  | [], rest => some rest
  | _ :: _, [] => none
  | a :: as, c :: cs => if c = a then dropLit as cs else none

/-- One character satisfying p: a regex single-character class. -/
def dropCharP (p : Char → Bool) : LC → Option LC
  | [] => none
  | c :: cs => if p c then some cs else none

/-- Greedy `[p]+` (one or more characters satisfying p, maximal munch). -/
def takeClass1 (p : Char → Bool) (l : LC) : Option (LC × LC) :=
  let t := l.takeWhile p
  if t.isEmpty then none else some (t, l.dropWhile p)

/-- Greedy `[p]*` (zero or more characters satisfying p, maximal munch). -/
def takeClass0 (p : Char → Bool) (l : LC) : LC × LC :=
  (l.takeWhile p, l.dropWhile p)

/-- Lazy `.*?lit` followed by continuation k, with the regex engine's
backtracking: the literal is tried at each position from the left and the
scan moves on when the rest of the pattern fails; `.` does not match a
newline, so the scan cannot move past one. -/
def scanFor {α : Type} (lit : LC) (k : LC → Option α) : LC → Option α
  | [] => (dropLit lit []).bind k
  | c :: cs =>
    ((dropLit lit (c :: cs)).bind k) <|>
      (if c = '\n' then none else scanFor lit k cs)

/-- Lazy `.*?\blit` where lit starts with a word character: as scanFor but
the character before the literal must not be a word character. -/
def scanForWB {α : Type} (lit : LC) (k : LC → Option α) :
    Bool → LC → Option α
  | prevWord, [] => if prevWord then none else (dropLit lit []).bind k
  | prevWord, c :: cs =>
    (if prevWord then none else (dropLit lit (c :: cs)).bind k) <|>
      (if c = '\n' then none else scanForWB lit k (isWordChar c) cs)

/-- Plain first-occurrence substring search returning the suffix after the
needle (Rust str::find); unlike scanFor it takes no continuation. -/
def findAfterLit (lit : LC) : LC → Option LC
  | [] => dropLit lit []
  | c :: cs => (dropLit lit (c :: cs)) <|> findAfterLit lit cs

/-- Whether pat occurs as a contiguous substring (Rust str::contains). -/
def containsSub (pat : LC) : LC → Bool
  | [] => (dropLit pat []).isSome
  | c :: cs => (dropLit pat (c :: cs)).isSome || containsSub pat cs

def natOfDigits (l : LC) : Nat :=
  l.foldl (fun n c => n * 10 + (c.toNat - 0x30)) 0

/-- Exactly n decimal digits, returning their value and the rest. -/
def parseDigitsAux : Nat → Nat → LC → Option (Nat × LC)
  | 0, acc, l => some (acc, l)
  | _ + 1, _, [] => none
  | n + 1, acc, c :: cs =>
    if isDigitChar c then parseDigitsAux n (acc * 10 + (c.toNat - 0x30)) cs
    else none

def parseDigits (n : Nat) (l : LC) : Option (Nat × LC) := parseDigitsAux n 0 l

def isLeapYear (y : Nat) : Bool :=
  (y % 4 == 0 && y % 100 != 0) || y % 400 == 0

def daysInMonth (y m : Nat) : Nat :=
  if m = 2 then (if isLeapYear y then 29 else 28)
  else if m = 4 ∨ m = 6 ∨ m = 9 ∨ m = 11 then 30
  else 31

/-- Days from 1970-01-01 to year/month/day of the proleptic Gregorian
calendar (the standard era-based civil-from-days inverse). -/
def daysFromCivil (y m d : Nat) : Int :=
  let yAdj : Int := if m ≤ 2 then (y : Int) - 1 else (y : Int)
  let era : Int := Int.ediv yAdj 400
  let yoe : Int := yAdj - era * 400
  let mp : Int := if m ≤ 2 then (m : Int) + 9 else (m : Int) - 3
  let doy : Int := Int.ediv (153 * mp + 2) 5 + (d : Int) - 1
  let doe : Int := yoe * 365 + Int.ediv yoe 4 - Int.ediv yoe 100 + doy
  era * 146097 + doe - 719468

/-- Offset part of an RFC 3339 timestamp: Z (either case) or a signed
hour:minute offset; returns the offset in seconds and the rest. -/
def parseOffset (l : LC) : Option (Int × LC) :=
  match l with
  | 'Z' :: r => some (0, r)
  | 'z' :: r => some (0, r)
  | '+' :: r =>
    (match parseDigits 2 r with
    | none => none
    | some (h, r) =>
    match dropLit [':'] r with
    | none => none
    | some r =>
    match parseDigits 2 r with
    | none => none
    | some (mi, r) =>
      if h ≤ 23 ∧ mi ≤ 59 then some (((h * 3600 + mi * 60 : Nat) : Int), r)
      else none)
  | '-' :: r =>
    (match parseDigits 2 r with
    | none => none
    | some (h, r) =>
    match dropLit [':'] r with
    | none => none
    | some r =>
    match parseDigits 2 r with
    | none => none
    | some (mi, r) =>
      if h ≤ 23 ∧ mi ≤ 59 then some (-((h * 3600 + mi * 60 : Nat) : Int), r)
      else none)
  | _ => none

/-- Fractional-second part: a dot and one or more digits; the first nine
digits are significant (chrono ignores further precision). Returns the
nanoseconds and the rest; when no dot is present, zero nanoseconds. -/
def parseFrac (l : LC) : Option (Nat × LC) :=
  match l with
  | '.' :: r =>
    (match takeClass1 isDigitChar r with
    | none => none
    | some (ds, r) =>
      some (natOfDigits (ds.take 9) * 10 ^ (9 - min 9 ds.length), r))
  | _ => some (0, l)

/-- Date part YYYY-MM-DD of an RFC 3339 timestamp. -/
def parseDatePart (l : LC) : Option (Nat × Nat × Nat × LC) :=
  match parseDigits 4 l with
  | none => none
  | some (y, r) =>
  match dropLit ['-'] r with
  | none => none
  | some r =>
  match parseDigits 2 r with
  | none => none
  | some (m, r) =>
  match dropLit ['-'] r with
  | none => none
  | some r =>
  match parseDigits 2 r with
  | none => none
  | some (d, r) => some (y, m, d, r)

/-- Time part HH:MM:SS of an RFC 3339 timestamp. -/
def parseTimePart (l : LC) : Option (Nat × Nat × Nat × LC) :=
  match parseDigits 2 l with
  | none => none
  | some (h, r) =>
  match dropLit [':'] r with
  | none => none
  | some r =>
  match parseDigits 2 r with
  | none => none
  | some (mi, r) =>
  match dropLit [':'] r with
  | none => none
  | some r =>
  match parseDigits 2 r with
  | none => none
  | some (s, r) => some (h, mi, s, r)

/-- Model of chrono DateTime::parse_from_rfc3339 followed by
with_timezone(&Utc): the whole token must be a date, T (either case, or a
space), a time, an optional fraction and an offset, with nothing after;
the result is nanoseconds since the Unix epoch. Leap seconds (second 60)
are not modelled. -/
def parse_timestamp (raw : LC) : Option Int :=
  match parseDatePart raw with
  | none => none
  | some (y, m, d, r) =>
  match dropCharP (fun c => c == 'T' || c == 't' || c == ' ') r with
  | none => none
  | some r =>
  match parseTimePart r with
  | none => none
  | some (h, mi, s, r) =>
  match parseFrac r with
  | none => none
  | some (frac, r) =>
  match parseOffset r with
  | none => none
  | some (off, r) =>
    if r = [] ∧ 1 ≤ m ∧ m ≤ 12 ∧ 1 ≤ d ∧ d ≤ daysInMonth y m ∧
        h ≤ 23 ∧ mi ≤ 59 ∧ s ≤ 59 then
      some ((daysFromCivil y m d * 86400 +
        ((h * 3600 + mi * 60 + s : Nat) : Int) - off) * 1000000000 +
        (frac : Int))
    else none

/-! Event data model (src/main.rs, structs KillEvent .. VehicleDestructionEvent,
enum EventKind, struct PlayerEvent). -/

structure KillEvent where
  victim_name : LC
  victim_id : LC
  killer_name : LC
  killer_id : LC
  weapon : LC
  weapon_class : LC
  damage_type : LC
  zone : LC
deriving DecidableEq

structure SpawnReservationEvent where
  player_name : LC
  player_id : LC
  spawn_point : LC
  spawn_id : LC
  location : LC
deriving DecidableEq

structure CorpseStatusEvent where
  player_name : LC
  context : Option LC
  corpse_enabled : Bool
deriving DecidableEq

structure ZoneTransferEvent where
  player_name : LC
  child_id : Option LC
  parent_id : Option LC
  parent_name : Option LC
  host_id : Option LC
  host_name : Option LC
deriving DecidableEq

structure StatusEffectEvent where
  player_name : LC
  effect : LC
  stage : LC
deriving DecidableEq

structure HitEvent where
  attacker : LC
  target : LC
  child : Option LC
deriving DecidableEq

structure VehicleDestructionEvent where
  vehicle_name : LC
  vehicle_id : LC
  zone : LC
  driver_name : LC
  driver_id : LC
  from_level : Nat
  to_level : Nat
  attacker_name : LC
  attacker_id : LC
  cause : LC
deriving DecidableEq

inductive EventKind where
  | Kill : KillEvent → EventKind
  | SpawnReservation : SpawnReservationEvent → EventKind
  | CorpseStatus : CorpseStatusEvent → EventKind
  | ZoneTransfer : ZoneTransferEvent → EventKind
  | StatusEffect : StatusEffectEvent → EventKind
  | Hit : HitEvent → EventKind
  | VehicleDestruction : VehicleDestructionEvent → EventKind
deriving DecidableEq

structure PlayerEvent where
  timestamp : Int
  kind : EventKind
  raw : LC
deriving DecidableEq

/-! Kill grammar (parse_actor_death). Regex:
`^<(?P<timestamp>[^>]+)>.*?<Actor Death> CActor::Kill: ["'](?P<victim>[^"']+)["']\s\[(?P<victim_id>[^\]]+)\](?: in zone ["'](?P<zone>[^"']+)["'])? killed by ["'](?P<killer>[^"']+)["']\s\[(?P<killer_id>[^\]]+)\](?: using ["'](?P<weapon>[^"']*)["'](?: \[(?P<weapon_class>[^\]]+)\])?)?\s+with damage type ["'](?P<damage>[^"']+)["'].*` -/

def notQuote (c : Char) : Bool := !(c == '"' || c == '\'')

def notRBracket (c : Char) : Bool := !(c == ']')

def notGt (c : Char) : Bool := !(c == '>')

/-- A character of the regex class `["']`. -/
def dropQuote (l : LC) : Option LC :=
  dropCharP (fun c => c == '"' || c == '\'') l

/-- The anchored head `^<([^>]+)>` common to all seven grammars: the
timestamp capture and the rest. -/
def tsHead (line : LC) : Option (LC × LC) :=
  match dropLit "<".data line with
  | none => none
  | some r =>
  match takeClass1 notGt r with
  | none => none
  | some (ts, r) =>
  match dropLit ">".data r with
  | none => none
  | some r => some (ts, r)

structure KillCaps where
  ts : LC
  victim : LC
  victim_id : LC
  zone : Option LC
  killer : LC
  killer_id : LC
  weapon : Option LC
  weapon_class : Option LC
  damage : LC
deriving DecidableEq

/-- The mandatory tail `\s+with damage type ["']([^"']+)["'].*` of the Kill
regex; returns the damage capture. -/
def killDamagePart (r : LC) : Option LC :=
  match takeClass1 isWs r with
  | none => none
  | some (_, r) =>
  match dropLit "with damage type ".data r with
  | none => none
  | some r =>
  match dropQuote r with
  | none => none
  | some r =>
  match takeClass1 notQuote r with
  | none => none
  | some (dmg, r) =>
  match dropQuote r with
  | none => none
  | some _ => some dmg

/-- The inner optional group `(?: \[([^\]]+)\])?` of the using group,
followed by the damage tail. -/
def killClassPart (w : LC) (r : LC) : Option (Option LC × Option LC × LC) :=
  (match dropLit " [".data r with
  | none => none
  | some r2 =>
  match takeClass1 notRBracket r2 with
  | none => none
  | some (wc, r2) =>
  match dropLit "]".data r2 with
  | none => none
  | some r2 =>
  match killDamagePart r2 with
  | none => none
  | some dmg => some (some w, some wc, dmg)) <|>
  (match killDamagePart r with
  | none => none
  | some dmg => some (some w, none, dmg))

/-- The optional group `(?: using ["']([^"']*)["'](?: \[([^\]]+)\])?)?`
followed by the damage tail; returns (weapon, weapon class, damage). -/
def killUsingPart (r : LC) : Option (Option LC × Option LC × LC) :=
  (match dropLit " using ".data r with
  | none => none
  | some r1 =>
  match dropQuote r1 with
  | none => none
  | some r1 =>
    (match takeClass0 notQuote r1 with
    | (w, r1) =>
      match dropQuote r1 with
      | none => none
      | some r1 => killClassPart w r1)) <|>
  (match killDamagePart r with
  | none => none
  | some dmg => some (none, none, dmg))

/-- The part ` killed by ["']([^"']+)["']\s\[([^\]]+)\]` plus the rest. -/
def killKillerPart (r : LC) : Option (LC × LC × (Option LC × Option LC × LC)) :=
  match dropLit " killed by ".data r with
  | none => none
  | some r =>
  match dropQuote r with
  | none => none
  | some r =>
  match takeClass1 notQuote r with
  | none => none
  | some (k, r) =>
  match dropQuote r with
  | none => none
  | some r =>
  match dropCharP isWs r with
  | none => none
  | some r =>
  match dropLit "[".data r with
  | none => none
  | some r =>
  match takeClass1 notRBracket r with
  | none => none
  | some (kid, r) =>
  match dropLit "]".data r with
  | none => none
  | some r =>
  match killUsingPart r with
  | none => none
  | some rest => some (k, kid, rest)

/-- The optional group `(?: in zone ["']([^"']+)["'])?` plus the rest. -/
def killZonePart (r : LC) :
    Option (Option LC × LC × LC × (Option LC × Option LC × LC)) :=
  (match dropLit " in zone ".data r with
  | none => none
  | some r1 =>
  match dropQuote r1 with
  | none => none
  | some r1 =>
  match takeClass1 notQuote r1 with
  | none => none
  | some (z, r1) =>
  match dropQuote r1 with
  | none => none
  | some r1 =>
  match killKillerPart r1 with
  | none => none
  | some rest => some (some z, rest)) <|>
  (match killKillerPart r with
  | none => none
  | some rest => some (none, rest))

/-- The continuation of the Kill regex after the lazy scan. -/
def killBody (ts : LC) (r : LC) : Option KillCaps :=
  match dropQuote r with
  | none => none
  | some r =>
  match takeClass1 notQuote r with
  | none => none
  | some (v, r) =>
  match dropQuote r with
  | none => none
  | some r =>
  match dropCharP isWs r with
  | none => none
  | some r =>
  match dropLit "[".data r with
  | none => none
  | some r =>
  match takeClass1 notRBracket r with
  | none => none
  | some (vid, r) =>
  match dropLit "]".data r with
  | none => none
  | some r =>
  match killZonePart r with
  | none => none
  | some (z, k, kid, w, wc, dmg) =>
    some { ts := ts, victim := v, victim_id := vid, zone := z, killer := k,
           killer_id := kid, weapon := w, weapon_class := wc, damage := dmg }

/-- Captures of one match attempt of the Kill regex against a line. -/
def killCaps (line : LC) : Option KillCaps :=
  match tsHead line with
  | none => none
  | some (ts, r) =>
    scanFor "<Actor Death> CActor::Kill: ".data (killBody ts) r

/-- src/main.rs parse_actor_death: regex captures, then the timestamp; the
optional groups default to the empty string. -/
def parse_actor_death (line : LC) : Option PlayerEvent :=
  match killCaps line with
  | none => none
  | some caps =>
  match parse_timestamp caps.ts with
  | none => none
  | some timestamp =>
    some { timestamp := timestamp,
           kind := .Kill
             { victim_name := caps.victim, victim_id := caps.victim_id,
               killer_name := caps.killer, killer_id := caps.killer_id,
               weapon := caps.weapon.getD [],
               weapon_class := caps.weapon_class.getD [],
               damage_type := caps.damage, zone := caps.zone.getD [] },
           raw := line }

/-! SpawnReservation grammar (parse_spawn_reservation). Regex:
`^<(?P<timestamp>[^>]+)>.*?<Spawn Flow>.*?Player ["'](?P<player>[^"']+)["']\s\[(?P<player_id>[^\]]+)\] lost reservation for spawnpoint (?P<spawnpoint>[^\[]+)\s\[(?P<spawn_id>[^\]]+)\] at location (?P<location>[-\d]+)` -/

structure SpawnCaps where
  ts : LC
  player : LC
  player_id : LC
  spawnpoint : LC
  spawn_id : LC
  location : LC
deriving DecidableEq

/-- The fragment `([^\[]+)\s\[`: the greedy class runs up to the next
opening bracket and then gives exactly one character back to `\s` (giving
back more would leave `\[` facing a non-bracket character); the character
given back must be whitespace. Returns the capture and the rest after the
bracket. -/
def spawnpointPart (r : LC) : Option (LC × LC) :=
  let run := r.takeWhile (fun c => !(c == '['))
  let rest := r.dropWhile (fun c => !(c == '['))
  match run.getLast? with
  | none => none
  | some c =>
    if isWs c ∧ 2 ≤ run.length then
      (dropLit "[".data rest).map (fun r2 => (run.dropLast, r2))
    else none

/-- The continuation of the SpawnReservation regex after its two lazy
scans. -/
def spawnBody (ts : LC) (r : LC) : Option SpawnCaps :=
  match dropQuote r with
  | none => none
  | some r =>
  match takeClass1 notQuote r with
  | none => none
  | some (p, r) =>
  match dropQuote r with
  | none => none
  | some r =>
  match dropCharP isWs r with
  | none => none
  | some r =>
  match dropLit "[".data r with
  | none => none
  | some r =>
  match takeClass1 notRBracket r with
  | none => none
  | some (pid, r) =>
  match dropLit "]".data r with
  | none => none
  | some r =>
  match dropLit " lost reservation for spawnpoint ".data r with
  | none => none
  | some r =>
  match spawnpointPart r with
  | none => none
  | some (sp, r) =>
  match takeClass1 notRBracket r with
  | none => none
  | some (sid, r) =>
  match dropLit "]".data r with
  | none => none
  | some r =>
  match dropLit " at location ".data r with
  | none => none
  | some r =>
  match takeClass1 (fun c => c == '-' || isDigitChar c) r with
  | none => none
  | some (loc, _) =>
    some { ts := ts, player := p, player_id := pid, spawnpoint := sp,
           spawn_id := sid, location := loc }

def spawnCaps (line : LC) : Option SpawnCaps :=
  match tsHead line with
  | none => none
  | some (ts, r) =>
    scanFor "<Spawn Flow>".data
      (fun r => scanFor "Player ".data (spawnBody ts) r) r

/-- src/main.rs parse_spawn_reservation. -/
def parse_spawn_reservation (line : LC) : Option PlayerEvent :=
  match spawnCaps line with
  | none => none
  | some caps =>
  match parse_timestamp caps.ts with
  | none => none
  | some timestamp =>
    some { timestamp := timestamp,
           kind := .SpawnReservation
             { player_name := trimWs caps.player, player_id := caps.player_id,
               spawn_point := trimWs caps.spawnpoint, spawn_id := caps.spawn_id,
               location := caps.location },
           raw := line }

/-! CorpseStatus grammar (parse_corpse_status). Regex:
`^<(?P<timestamp>[^>]+)>.*?\bPlayer ["'](?P<player>[^"'<>]+)["']\s*(?P<context><[^>]+>)?:\s*IsCorpseEnabled:\s*(?P<enabled>Yes|No)\.?`
The Yes|No alternation is case-sensitive (the regex is compiled without a
case-insensitivity flag); the trailing `\.?` always succeeds. -/

structure CorpseCaps where
  ts : LC
  player : LC
  context : Option LC
  enabled : LC
deriving DecidableEq

/-- The part `:\s*IsCorpseEnabled:\s*(Yes|No)\.?` after the optional
context group; returns the enabled capture. -/
def corpseTail (r : LC) : Option LC :=
  match dropLit ":".data r with
  | none => none
  | some r =>
  match dropLit "IsCorpseEnabled:".data (r.dropWhile isWs) with
  | none => none
  | some r =>
    (match dropLit "Yes".data (r.dropWhile isWs) with
    | some _ => some "Yes".data
    | none =>
      match dropLit "No".data (r.dropWhile isWs) with
      | some _ => some "No".data
      | none => none)

/-- The continuation of the CorpseStatus regex after the word-boundary
scan: quoted player, `\s*`, the optional bracketed context group (tried
first), and the tail. -/
def corpseBody (ts : LC) (r : LC) : Option CorpseCaps :=
  match dropQuote r with
  | none => none
  | some r =>
  match takeClass1 (fun c => !(c == '"' || c == '\'' || c == '<' || c == '>')) r with
  | none => none
  | some (p, r) =>
  match dropQuote r with
  | none => none
  | some r =>
    (let r := r.dropWhile isWs
    (match dropLit "<".data r with
    | none => none
    | some r1 =>
    match takeClass1 notGt r1 with
    | none => none
    | some (cx, r1) =>
    match dropLit ">".data r1 with
    | none => none
    | some r1 =>
    match corpseTail r1 with
    | none => none
    | some en =>
      some { ts := ts, player := p,
             context := some ('<' :: (cx ++ ['>'])), enabled := en }) <|>
    (match corpseTail r with
    | none => none
    | some en =>
      some { ts := ts, player := p, context := none, enabled := en }))

def corpseCaps (line : LC) : Option CorpseCaps :=
  match tsHead line with
  | none => none
  | some (ts, r) =>
    scanForWB "Player ".data (corpseBody ts) (isWordChar '>') r

/-- src/main.rs matches_ignore_case. -/
def matches_ignore_case (value expected : LC) : Bool :=
  eqIgnoreAsciiCase value expected

/-- The Rust chain trim, trim_start_matches of the opening angle,
trim_end_matches of the closing angle, trim, applied to the captured
context; empty results become none. -/
def corpseContext (m : LC) : Option LC :=
  let t := trimWs m
  let t := t.dropWhile (fun c => c == '<')
  let t := (t.reverse.dropWhile (fun c => c == '>')).reverse
  let t := trimWs t
  if t.isEmpty then none else some t

/-- src/main.rs parse_corpse_status: an enabled flag matching Yes (ASCII
case-insensitively; the regex only produces the literal Yes or No) makes
the function return none. -/
def parse_corpse_status (line : LC) : Option PlayerEvent :=
  match corpseCaps line with
  | none => none
  | some caps =>
  match parse_timestamp caps.ts with
  | none => none
  | some timestamp =>
    let corpse_enabled := matches_ignore_case caps.enabled "Yes".data
    if corpse_enabled then none
    else
      some { timestamp := timestamp,
             kind := .CorpseStatus
               { player_name := trimWs caps.player,
                 context := caps.context.bind corpseContext,
                 corpse_enabled := corpse_enabled },
             raw := line }

/-! ZoneTransfer grammar (parse_zone_transfer). Regex:
`^<(?P<timestamp>[^>]+)>.*?moving zone hosted child id = (?P<child_id>\d+)\s+name\s*=\s*"(?P<player>[^"]+)"\s+to unblock removal of parent id = (?P<parent_id>\d+)\s+name\s*=\s*"(?P<parent_name>[^"]+)"\s+into zone host id = (?P<host_id>\d+)\s+name\s*=\s*"(?P<host_name>[^"]+)"` -/

structure ZoneCaps where
  ts : LC
  child_id : LC
  player : LC
  parent_id : LC
  parent_name : LC
  host_id : LC
  host_name : LC
deriving DecidableEq

/-- The fragment `name\s*=\s*"([^"]+)"`. -/
def zoneNameEq (r : LC) : Option (LC × LC) :=
  match dropLit "name".data r with
  | none => none
  | some r =>
  match dropLit "=".data (r.dropWhile isWs) with
  | none => none
  | some r =>
  match dropLit "\"".data (r.dropWhile isWs) with
  | none => none
  | some r =>
  match takeClass1 (fun c => !(c == '"')) r with
  | none => none
  | some (n, r) =>
  match dropLit "\"".data r with
  | none => none
  | some r => some (n, r)

/-- The fragment `(\d+)\s+name\s*=\s*"([^"]+)"`. -/
def zoneIdName (r : LC) : Option (LC × LC × LC) :=
  match takeClass1 isDigitChar r with
  | none => none
  | some (i, r) =>
  match takeClass1 isWs r with
  | none => none
  | some (_, r) =>
  match zoneNameEq r with
  | none => none
  | some (n, r) => some (i, n, r)

/-- The continuation of the ZoneTransfer regex after the lazy scan. -/
def zoneBody (ts : LC) (r : LC) : Option ZoneCaps :=
  match zoneIdName r with
  | none => none
  | some (cid, p, r) =>
  match takeClass1 isWs r with
  | none => none
  | some (_, r) =>
  match dropLit "to unblock removal of parent id = ".data r with
  | none => none
  | some r =>
  match zoneIdName r with
  | none => none
  | some (pid, pn, r) =>
  match takeClass1 isWs r with
  | none => none
  | some (_, r) =>
  match dropLit "into zone host id = ".data r with
  | none => none
  | some r =>
  match zoneIdName r with
  | none => none
  | some (hid, hn, _) =>
    some { ts := ts, child_id := cid, player := p, parent_id := pid,
           parent_name := pn, host_id := hid, host_name := hn }

def zoneCaps (line : LC) : Option ZoneCaps :=
  match tsHead line with
  | none => none
  | some (ts, r) =>
    scanFor "moving zone hosted child id = ".data (zoneBody ts) r

/-- src/main.rs parse_zone_transfer: rejects an empty extracted player
name even though the pattern matched (the capture class makes it
nonempty; the check is kept from the source). -/
def parse_zone_transfer (line : LC) : Option PlayerEvent :=
  match zoneCaps line with
  | none => none
  | some caps =>
  match parse_timestamp caps.ts with
  | none => none
  | some timestamp =>
    if caps.player.isEmpty then none
    else
      some { timestamp := timestamp,
             kind := .ZoneTransfer
               { player_name := caps.player, child_id := some caps.child_id,
                 parent_id := some caps.parent_id,
                 parent_name := some caps.parent_name,
                 host_id := some caps.host_id,
                 host_name := some caps.host_name },
             raw := line }

/-! StatusEffect grammar (parse_status_effect). Regex:
`^<(?P<timestamp>[^>]+)>.*?Logged (?P<article>a|an) (?P<stage>start|end) of a status effect!\s*nickname:\s*(?P<nickname>[^,]+),\s*status effect:\s*(?P<effect>.+)` -/

structure SECaps where
  ts : LC
  nickname : LC
  stage : Option LC
  effect : Option LC
deriving DecidableEq

/-- The alternation `(start|end)`: the left alternative is tried first. -/
def stageTok (r : LC) : Option (LC × LC) :=
  match dropLit "start".data r with
  | some r1 => some ("start".data, r1)
  | none =>
    match dropLit "end".data r with
    | some r1 => some ("end".data, r1)
    | none => none

/-- The fragment `.+` (one or more characters other than a newline,
greedy, with nothing after it). -/
def dotPlus (l : LC) : Option LC :=
  let e := l.takeWhile (fun c => !(c == '\n'))
  if e.isEmpty then none else some e

/-- The fragment `\s*(.+)`: greedy whitespace that gives characters back
(whitespace other than a newline is also matched by the dot) until the
capture is nonempty. -/
def effectPart : LC → Option LC
  | [] => none
  | c :: rest =>
    if isWs c then (effectPart rest) <|> dotPlus (c :: rest)
    else dotPlus (c :: rest)

/-- The fragment `\s*([^,]+),`: greedy whitespace, then the nickname
capture running to the first comma. When only whitespace stands between
the position and that comma, the greedy `\s*` backtracks and gives
exactly one whitespace character back to the capture (giving back more
would leave the comma literal facing a non-comma character); with no
whitespace to give back the fragment fails. Returns the capture and the
rest after the comma. -/
def nicknamePart (r : LC) : Option (LC × LC) :=
  let ws := r.takeWhile isWs
  let rest0 := r.dropWhile isWs
  match takeClass1 (fun c => !(c == ',')) rest0 with
  | some (nick, r1) =>
    (match dropLit ",".data r1 with
    | none => none
    | some r2 => some (nick, r2))
  | none =>
    (match ws.getLast? with
    | none => none
    | some w =>
      match dropLit ",".data rest0 with
      | none => none
      | some r2 => some ([w], r2))

/-- The part of the StatusEffect regex after the article alternation:
` (start|end) of a status effect!\s*nickname:\s*([^,]+),\s*status effect:\s*(.+)`. -/
def seAfterArticle (ts : LC) (r : LC) : Option SECaps :=
  match dropLit " ".data r with
  | none => none
  | some r =>
  match stageTok r with
  | none => none
  | some (stg, r) =>
  match dropLit " of a status effect!".data r with
  | none => none
  | some r =>
  match dropLit "nickname:".data (r.dropWhile isWs) with
  | none => none
  | some r =>
  match nicknamePart r with
  | none => none
  | some (nick, r) =>
  match dropLit "status effect:".data (r.dropWhile isWs) with
  | none => none
  | some r =>
  match effectPart r with
  | none => none
  | some eff =>
    some { ts := ts, nickname := nick, stage := some stg, effect := some eff }

/-- The continuation of the StatusEffect regex after the lazy scan: the
article alternation `(a|an)` (single a first) and the rest. -/
def seBody (ts : LC) (r : LC) : Option SECaps :=
  ((dropLit "a".data r).bind (seAfterArticle ts)) <|>
  ((dropLit "an".data r).bind (seAfterArticle ts))

def seCaps (line : LC) : Option SECaps :=
  match tsHead line with
  | none => none
  | some (ts, r) => scanFor "Logged ".data (seBody ts) r

/-- src/main.rs parse_status_effect: the stage capture is trimmed and
ASCII-lowercased, with a defensive default of start when the group is
absent; the effect capture is trimmed. -/
def parse_status_effect (line : LC) : Option PlayerEvent :=
  match seCaps line with
  | none => none
  | some caps =>
  match parse_timestamp caps.ts with
  | none => none
  | some timestamp =>
    some { timestamp := timestamp,
           kind := .StatusEffect
             { player_name := trimWs caps.nickname,
               effect := (caps.effect.map (fun e => trimWs e)).getD [],
               stage := (caps.stage.map (fun s => lowerAscii (trimWs s))).getD
                 "start".data },
           raw := line }

/-! Hit grammar (parse_hit_event). Regex:
`^<(?P<timestamp>[^>]+)>.*?<Debug Hostility Events>.*?Fake hit FROM (?P<attacker>[^\s]+) TO (?P<target>[^\.]+)\.\s*Being sent to child (?P<child>[\w_-]+)` -/

structure HitCaps where
  ts : LC
  attacker : LC
  target : LC
  child : LC
deriving DecidableEq

/-- The continuation of the Hit regex after its two lazy scans. -/
def hitBody (ts : LC) (r : LC) : Option HitCaps :=
  match takeClass1 (fun c => !(isWs c)) r with
  | none => none
  | some (att, r) =>
  match dropLit " TO ".data r with
  | none => none
  | some r =>
  match takeClass1 (fun c => !(c == '.')) r with
  | none => none
  | some (tgt, r) =>
  match dropLit ".".data r with
  | none => none
  | some r =>
  match dropLit "Being sent to child ".data (r.dropWhile isWs) with
  | none => none
  | some r =>
  match takeClass1 (fun c => isWordChar c || c == '-') r with
  | none => none
  | some (ch, _) =>
    some { ts := ts, attacker := att, target := tgt, child := ch }

def hitCaps (line : LC) : Option HitCaps :=
  match tsHead line with
  | none => none
  | some (ts, r) =>
    scanFor "<Debug Hostility Events>".data
      (fun r => scanFor "Fake hit FROM ".data (hitBody ts) r) r

/-- src/main.rs parse_hit_event: the target is trimmed; the child is
trimmed and dropped when empty. -/
def parse_hit_event (line : LC) : Option PlayerEvent :=
  match hitCaps line with
  | none => none
  | some caps =>
  match parse_timestamp caps.ts with
  | none => none
  | some timestamp =>
    let child := trimWs caps.child
    some { timestamp := timestamp,
           kind := .Hit
             { attacker := caps.attacker, target := trimWs caps.target,
               child := if child.isEmpty then none else some child },
           raw := line }

/-! VehicleDestruction grammar (parse_vehicle_destruction). Regex:
`^<(?P<timestamp>[^>]+)>.*?<Vehicle Destruction>.*?Vehicle '(?P<vehicle>[^']+)'\s*\[(?P<vehicle_id>[^\]]+)\].*?zone '(?P<zone>[^']+)'.*?driven by '(?P<driver>[^']+)'\s*\[(?P<driver_id>[^\]]+)\].*?advanced from destroy level (?P<from>\d+) to (?P<to>\d+) caused by '(?P<attacker>[^']+)'\s*\[(?P<attacker_id>[^\]]+)\]\s*with '(?P<cause>[^']+)'` -/

def notSQuote (c : Char) : Bool := !(c == '\'')

structure VehicleCaps where
  ts : LC
  vehicle : LC
  vehicle_id : LC
  zone : LC
  driver : LC
  driver_id : LC
  fromLevel : LC
  toLevel : LC
  attacker : LC
  attacker_id : LC
  cause : LC
deriving DecidableEq

/-- The tail of the VehicleDestruction regex from the destroy levels on. -/
def vehicleLevels (r : LC) : Option (LC × LC × LC × LC × LC) :=
  match takeClass1 isDigitChar r with
  | none => none
  | some (fr, r) =>
  match dropLit " to ".data r with
  | none => none
  | some r =>
  match takeClass1 isDigitChar r with
  | none => none
  | some (toL, r) =>
  match dropLit " caused by '".data r with
  | none => none
  | some r =>
  match takeClass1 notSQuote r with
  | none => none
  | some (att, r) =>
  match dropLit "'".data r with
  | none => none
  | some r =>
  match dropLit "[".data (r.dropWhile isWs) with
  | none => none
  | some r =>
  match takeClass1 notRBracket r with
  | none => none
  | some (aid, r) =>
  match dropLit "]".data r with
  | none => none
  | some r =>
  match dropLit "with '".data (r.dropWhile isWs) with
  | none => none
  | some r =>
  match takeClass1 notSQuote r with
  | none => none
  | some (cause, r) =>
  match dropLit "'".data r with
  | none => none
  | some _ => some (fr, toL, att, aid, cause)

/-- The driver fragment `'([^']+)'\s*\[([^\]]+)\]` and the final scan. -/
def vehicleDriverOn (ts veh vid z : LC) (r : LC) : Option VehicleCaps :=
  match takeClass1 notSQuote r with
  | none => none
  | some (drv, r) =>
  match dropLit "'".data r with
  | none => none
  | some r =>
  match dropLit "[".data (r.dropWhile isWs) with
  | none => none
  | some r =>
  match takeClass1 notRBracket r with
  | none => none
  | some (did, r) =>
  match dropLit "]".data r with
  | none => none
  | some r =>
    scanFor "advanced from destroy level ".data (fun r =>
      match vehicleLevels r with
      | none => none
      | some (fr, toL, att, aid, cause) =>
        some { ts := ts, vehicle := veh, vehicle_id := vid, zone := z,
               driver := drv, driver_id := did, fromLevel := fr,
               toLevel := toL, attacker := att, attacker_id := aid,
               cause := cause }) r

/-- The zone fragment `'([^']+)'` and the following scans. -/
def vehicleZoneOn (ts veh vid : LC) (r : LC) : Option VehicleCaps :=
  match takeClass1 notSQuote r with
  | none => none
  | some (z, r) =>
  match dropLit "'".data r with
  | none => none
  | some r =>
    scanFor "driven by '".data (vehicleDriverOn ts veh vid z) r

/-- The vehicle fragment `'([^']+)'\s*\[([^\]]+)\]` and the scans after. -/
def vehicleHeadOn (ts : LC) (r : LC) : Option VehicleCaps :=
  match takeClass1 notSQuote r with
  | none => none
  | some (veh, r) =>
  match dropLit "'".data r with
  | none => none
  | some r =>
  match dropLit "[".data (r.dropWhile isWs) with
  | none => none
  | some r =>
  match takeClass1 notRBracket r with
  | none => none
  | some (vid, r) =>
  match dropLit "]".data r with
  | none => none
  | some r =>
    scanFor "zone '".data (vehicleZoneOn ts veh vid) r

def vehicleCaps (line : LC) : Option VehicleCaps :=
  match tsHead line with
  | none => none
  | some (ts, r) =>
    scanFor "<Vehicle Destruction>".data
      (fun r => scanFor "Vehicle '".data (vehicleHeadOn ts) r) r

/-- Rust str::parse::<u32> on a digit string, with ok() and
unwrap_or_default: a value past u32::MAX parses to the default zero. -/
def parseU32OrZero (l : LC) : Nat :=
  let n := natOfDigits l
  if n < 4294967296 then n else 0

/-- src/main.rs parse_vehicle_destruction. -/
def parse_vehicle_destruction (line : LC) : Option PlayerEvent :=
  match vehicleCaps line with
  | none => none
  | some caps =>
  match parse_timestamp caps.ts with
  | none => none
  | some timestamp =>
    some { timestamp := timestamp,
           kind := .VehicleDestruction
             { vehicle_name := caps.vehicle, vehicle_id := caps.vehicle_id,
               zone := caps.zone, driver_name := caps.driver,
               driver_id := caps.driver_id,
               from_level := parseU32OrZero caps.fromLevel,
               to_level := parseU32OrZero caps.toLevel,
               attacker_name := caps.attacker, attacker_id := caps.attacker_id,
               cause := caps.cause },
           raw := line }

/-- src/main.rs parse_line: the grammars in their fixed priority order,
first success wins. -/
def parse_line (line : LC) : Option PlayerEvent :=
  (parse_actor_death line) <|>
  (parse_spawn_reservation line) <|>
  (parse_corpse_status line) <|>
  (parse_zone_transfer line) <|>
  (parse_status_effect line) <|>
  (parse_hit_event line) <|>
  (parse_vehicle_destruction line)

/-- src/main.rs extract_nickname: the text between the first occurrence
of the marker and the following double quote. -/
def extract_nickname (line : LC) : Option LC :=
  match findAfterLit "nickname=\"".data line with
  | none => none
  | some rest =>
    let name := rest.takeWhile (fun c => !(c == '"'))
    if name.length = rest.length then none else some name

/-! Log ingestion (parse_log). The byte-level reading loop (read_until on
the newline byte, stripping one trailing newline and then one carriage
return, lossy UTF-8 decoding per line) is modelled by logLines; the event
loop (first nickname, classification, adjacent-duplicate suppression) by
ingestRev / firstNickname; the final ordering by sortByTs and reverse.
I/O failure makes the Rust function return an error without producing a
ParsedLog; the pure model takes the bytes that were read. -/

/-- One buffer per read_until call: every chunk ends at a newline byte
(inclusive); a final chunk without a newline is kept; an empty tail is
not a chunk. -/
def splitChunksAux : List Nat → List Nat → List (List Nat)
  | acc, [] => if acc.isEmpty then [] else [acc.reverse]
  | acc, b :: bs =>
    if b = 10 then (acc.reverse ++ [10]) :: splitChunksAux [] bs
    else splitChunksAux (b :: acc) bs

/-- The source pops one trailing newline byte, and then one carriage
return only when a newline was popped. -/
def stripLineEnd (chunk : List Nat) : List Nat :=
  if chunk.getLast? = some 10 then
    let c := chunk.dropLast
    if c.getLast? = some 13 then c.dropLast else c
  else chunk

def utf8Repl : Char := Char.ofNat 0xFFFD

/-- A UTF-8 continuation byte. -/
def utf8Cont (b : Nat) : Bool := decide (0x80 ≤ b) && decide (b ≤ 0xBF)

/-- Valid second byte of a three-byte sequence (excludes overlong
encodings and surrogates). -/
def utf8Second3 (b b1 : Nat) : Bool :=
  if b = 0xE0 then decide (0xA0 ≤ b1) && decide (b1 ≤ 0xBF)
  else if b = 0xED then decide (0x80 ≤ b1) && decide (b1 ≤ 0x9F)
  else utf8Cont b1

/-- Valid second byte of a four-byte sequence (excludes overlong
encodings and code points past U+10FFFF). -/
def utf8Second4 (b b1 : Nat) : Bool :=
  if b = 0xF0 then decide (0x90 ≤ b1) && decide (b1 ≤ 0xBF)
  else if b = 0xF4 then decide (0x80 ≤ b1) && decide (b1 ≤ 0x8F)
  else utf8Cont b1

/-- One step of lossy UTF-8 decoding: the next decoded character (a
replacement character for each maximal invalid subpart) and the remaining
bytes; none only on empty input. Every step consumes at least one byte. -/
def utf8Step : List Nat → Option (Char × List Nat)
  | [] => none
  | b :: bs =>
    if b ≤ 0x7F then some (Char.ofNat b, bs)
    else if 0xC2 ≤ b ∧ b ≤ 0xDF then
      match bs with
      | [] => some (utf8Repl, [])
      | b1 :: bs1 =>
        if utf8Cont b1 then
          some (Char.ofNat ((b - 0xC0) * 0x40 + (b1 - 0x80)), bs1)
        else some (utf8Repl, b1 :: bs1)
    else if 0xE0 ≤ b ∧ b ≤ 0xEF then
      match bs with
      | [] => some (utf8Repl, [])
      | b1 :: bs1 =>
        if utf8Second3 b b1 then
          match bs1 with
          | [] => some (utf8Repl, [])
          | b2 :: bs2 =>
            if utf8Cont b2 then
              some (Char.ofNat ((b - 0xE0) * 0x1000 + (b1 - 0x80) * 0x40 +
                (b2 - 0x80)), bs2)
            else some (utf8Repl, b2 :: bs2)
        else some (utf8Repl, b1 :: bs1)
    else if 0xF0 ≤ b ∧ b ≤ 0xF4 then
      match bs with
      | [] => some (utf8Repl, [])
      | b1 :: bs1 =>
        if utf8Second4 b b1 then
          match bs1 with
          | [] => some (utf8Repl, [])
          | b2 :: bs2 =>
            if utf8Cont b2 then
              match bs2 with
              | [] => some (utf8Repl, [])
              | b3 :: bs3 =>
                if utf8Cont b3 then
                  some (Char.ofNat ((b - 0xF0) * 0x40000 +
                    (b1 - 0x80) * 0x1000 + (b2 - 0x80) * 0x40 +
                    (b3 - 0x80)), bs3)
                else some (utf8Repl, b3 :: bs3)
            else some (utf8Repl, b2 :: bs2)
        else some (utf8Repl, b1 :: bs1)
    else some (utf8Repl, bs)

/-- Rust String::from_utf8_lossy, driven by a fuel bounded by the number
of bytes (each step consumes at least one byte). -/
def utf8DecodeLossyAux : Nat → List Nat → List Char
  | 0, _ => []
  | fuel + 1, bs =>
    match utf8Step bs with
    | none => []
    | some (c, rest) => c :: utf8DecodeLossyAux fuel rest

def utf8DecodeLossy (bs : List Nat) : List Char :=
  utf8DecodeLossyAux bs.length bs

/-- The decoded lines the read loop feeds to the per-line logic. -/
def logLines (bs : List Nat) : List LC :=
  (splitChunksAux [] bs).map (fun c => utf8DecodeLossy (stripLineEnd c))

/-- The event accumulation of the read loop, with the accumulator kept in
reverse (the head is the most recently accepted event, matching
events.last() in the source): a classified event is pushed unless its raw
text equals the raw text of the immediately preceding accepted event. -/
def ingestRev : List LC → List PlayerEvent → List PlayerEvent
  | [], acc => acc
  | l :: ls, acc =>
    match parse_line l with
    | none => ingestRev ls acc
    | some e =>
      match acc with
      | [] => ingestRev ls [e]
      | p :: _ =>
        if p.raw = e.raw then ingestRev ls acc else ingestRev ls (e :: acc)

/-- The accepted events in file order, before sorting. -/
def acceptedEvents (lines : List LC) : List PlayerEvent :=
  (ingestRev lines []).reverse

/-- The first nickname-bearing line wins (the loop only assigns while the
option is none). -/
def firstNickname : List LC → Option LC
  | [] => none
  | l :: ls =>
    match extract_nickname l with
    | some n => some n
    | none => firstNickname ls

/-- Insertion of one event into an ascending-by-timestamp list, before
the first strictly-later-or-equal element. Folded from the right this is
a stable ascending sort, extensionally equal to the stable
events.sort_by_key(timestamp) of the source. -/
def insertByTs (e : PlayerEvent) : List PlayerEvent → List PlayerEvent
  | [] => [e]
  | b :: l =>
    if e.timestamp ≤ b.timestamp then e :: b :: l else b :: insertByTs e l

/-- Stable ascending sort by timestamp (events.sort_by_key). -/
def sortByTs (l : List PlayerEvent) : List PlayerEvent :=
  l.foldr insertByTs []

structure ParsedLog where
  events : List PlayerEvent
  primary_nickname : Option LC
deriving DecidableEq

/-- src/main.rs parse_log on the decoded lines: accumulate, sort
ascending by timestamp (stable), then reverse to newest-first. -/
def parse_log_lines (lines : List LC) : ParsedLog :=
  { events := (sortByTs (acceptedEvents lines)).reverse,
    primary_nickname := firstNickname lines }

/-- src/main.rs parse_log on the raw bytes of the file. -/
def parse_log_bytes (bs : List Nat) : ParsedLog :=
  parse_log_lines (logLines bs)

/-! Rendering (summary_line, detail_lines), search, ignore logic and the
involved-players list (impl PlayerEvent in src/main.rs). -/

/-- Year/month/day from days since 1970-01-01 (the standard era-based
civil-from-days algorithm; inverse of daysFromCivil). -/
def civilFromDays (z0 : Int) : Int × Int × Int :=
  let z := z0 + 719468
  let era := Int.ediv z 146097
  let doe := z - era * 146097
  let yoe := Int.ediv
    (doe - Int.ediv doe 1460 + Int.ediv doe 36524 - Int.ediv doe 146096) 365
  let y := yoe + era * 400
  let doy := doe - (365 * yoe + Int.ediv yoe 4 - Int.ediv yoe 100)
  let mp := Int.ediv (5 * doy + 2) 153
  let d := doy - Int.ediv (153 * mp + 2) 5 + 1
  let m := mp + (if mp < 10 then 3 else -9)
  (y + (if m ≤ 2 then 1 else 0), m, d)

/-- Decimal digits of a natural number. -/
def natDigits (n : Nat) : LC := (Nat.repr n).data

/-- Zero-padded decimal rendering of a field of the formatted timestamp. -/
def padNum (width : Nat) (n : Int) : LC :=
  let s := natDigits n.natAbs
  let padded := (List.replicate (width - s.length) '0') ++ s
  if n < 0 then '-' :: padded else padded

/-- chrono format "%Y-%m-%d %H:%M:%S" on a UTC timestamp. -/
def formatTs (ts : Int) : LC :=
  let secs := Int.ediv ts 1000000000
  let days := Int.ediv secs 86400
  let sod := (Int.emod secs 86400).toNat
  match civilFromDays days with
  | (y, m, d) =>
    padNum 4 y ++ '-' :: padNum 2 m ++ '-' :: padNum 2 d ++ ' ' ::
    padNum 2 ((sod / 3600 : Nat) : Int) ++ ':' ::
    padNum 2 (((sod % 3600) / 60 : Nat) : Int) ++ ':' ::
    padNum 2 ((sod % 60 : Nat) : Int)

/-- src/main.rs format_status_stage. -/
def format_status_stage (stage effect : LC) : LC :=
  if matches_ignore_case stage "start".data then "started ".data ++ effect
  else if matches_ignore_case stage "end".data then "ended ".data ++ effect
  else stage ++ ' ' :: effect

/-- src/main.rs describe_destroy_levels. -/
def describe_destroy_levels (fromLevel toLevel : Nat) : LC :=
  if fromLevel = 0 ∧ toLevel = 1 then "soft kill".data
  else if fromLevel = 1 ∧ toLevel = 2 then "hard kill".data
  else if fromLevel < toLevel then "destroyed".data
  else "changed".data

/-- src/main.rs PlayerEvent::summary_line. -/
def summary_line (e : PlayerEvent) : LC :=
  let ts := formatTs e.timestamp
  match e.kind with
  | .Kill ev =>
    let weapon_display :=
      if ev.weapon.isEmpty then "unknown weapon".data
      else if ev.weapon_class.isEmpty then ev.weapon
      else ev.weapon ++ " (".data ++ ev.weapon_class ++ ")".data
    ts ++ " | Kill | ".data ++ ev.killer_name ++ " → ".data ++
      ev.victim_name ++ " with ".data ++ weapon_display
  | .SpawnReservation ev =>
    ts ++ " | Spawn | ".data ++ ev.player_name ++ " lost ".data ++
      ev.spawn_point
  | .CorpseStatus ev =>
    ts ++ " | Corpse | ".data ++ ev.player_name ++ " corpse ".data ++
      (if ev.corpse_enabled then "enabled".data else "disabled".data)
  | .ZoneTransfer ev =>
    ts ++ " | Zone | ".data ++ ev.player_name ++ " → ".data ++
      (match ev.host_name with
      | some n => if n.isEmpty then "unknown destination".data else n
      | none => "unknown destination".data)
  | .StatusEffect ev =>
    ts ++ " | Status | ".data ++ ev.player_name ++ ' ' ::
      format_status_stage ev.stage ev.effect
  | .Hit ev =>
    ts ++ " | Hit | ".data ++ ev.attacker ++ " → ".data ++ ev.target
  | .VehicleDestruction ev =>
    ts ++ " | Vehicle | ".data ++ ev.attacker_name ++ ' ' ::
      describe_destroy_levels ev.from_level ev.to_level ++ " (".data ++
      ev.vehicle_name ++ ")".data

/-- src/main.rs PlayerEvent::detail_lines. -/
def detail_lines (e : PlayerEvent) : List LC :=
  match e.kind with
  | .Kill ev =>
    let lines := ["Victim: ".data ++ ev.victim_name ++ " [".data ++
        ev.victim_id ++ "] in ".data ++ ev.zone,
      "Killer: ".data ++ ev.killer_name ++ " [".data ++ ev.killer_id ++
        "]".data]
    if !ev.damage_type.isEmpty then
      lines ++ ["Damage type: ".data ++ ev.damage_type]
    else lines
  | .SpawnReservation ev =>
    ["Player: ".data ++ ev.player_name ++ " [".data ++ ev.player_id ++
        "]".data,
      "Spawn point: ".data ++ ev.spawn_point,
      "Spawn ID: ".data ++ ev.spawn_id,
      "Location: ".data ++ ev.location]
  | .CorpseStatus ev =>
    let lines := ["Corpse state: ".data ++
      (if ev.corpse_enabled then "Enabled".data else "Disabled".data)]
    match ev.context with
    | some context =>
      if !context.isEmpty then lines ++ ["Context: ".data ++ context]
      else lines
    | none => lines
  | .ZoneTransfer ev =>
    let lines := ["Player: ".data ++ ev.player_name]
    let lines := match ev.child_id with
      | some child_id => lines ++ ["Child ID: ".data ++ child_id]
      | none => lines
    let lines := match ev.parent_name with
      | some parent_name =>
        if !parent_name.isEmpty then lines ++ ["Parent: ".data ++ parent_name]
        else lines
      | none => lines
    let lines := match ev.parent_id with
      | some parent_id => lines ++ ["Parent ID: ".data ++ parent_id]
      | none => lines
    let lines := match ev.host_name with
      | some host_name =>
        if !host_name.isEmpty then lines ++ ["Zone host: ".data ++ host_name]
        else lines
      | none => lines
    match ev.host_id with
    | some host_id => lines ++ ["Zone host ID: ".data ++ host_id]
    | none => lines
  | .StatusEffect ev =>
    ["Player: ".data ++ ev.player_name,
      "Status effect: ".data ++ ev.effect,
      "Stage: ".data ++
        (if matches_ignore_case ev.stage "start".data then "Start".data
        else if matches_ignore_case ev.stage "end".data then "End".data
        else ev.stage)]
  | .Hit ev =>
    let lines := ["Attacker: ".data ++ ev.attacker,
      "Target: ".data ++ ev.target]
    match ev.child with
    | some child => lines ++ ["Child channel: ".data ++ child]
    | none => lines
  | .VehicleDestruction ev =>
    let lines := ["Vehicle: ".data ++ ev.vehicle_name ++ " [".data ++
        ev.vehicle_id ++ "]".data,
      "Destroy level: ".data ++ natDigits ev.from_level ++ " → ".data ++
        natDigits ev.to_level ++ " (".data ++
        describe_destroy_levels ev.from_level ev.to_level ++ ")".data,
      "Attacker: ".data ++ ev.attacker_name ++ " [".data ++
        ev.attacker_id ++ "] via ".data ++ ev.cause]
    let lines :=
      if !ev.zone.isEmpty then lines ++ ["Zone: ".data ++ ev.zone] else lines
    if !ev.driver_name.isEmpty then
      lines ++ ["Driver: ".data ++ ev.driver_name ++ " [".data ++
        ev.driver_id ++ "]".data]
    else lines

/-- src/main.rs PlayerEvent::search_blob: the lowercased summary, detail
lines and raw line joined by newlines. -/
def search_blob (e : PlayerEvent) : LC :=
  let blob := lowerAscii (summary_line e)
  let blob := (detail_lines e).foldl
    (fun b line => b ++ '\n' :: lowerAscii line) blob
  blob ++ '\n' :: lowerAscii e.raw

/-- src/main.rs PlayerEvent::matches_search. -/
def matches_search (e : PlayerEvent) (needle : LC) : Bool :=
  let needle := trimWs needle
  if needle.isEmpty then true else containsSub needle (search_blob e)

/-- src/main.rs PlayerEvent::should_ignore: the ignore-relevant actor per
variant; a Kill is ignored only when the killer matches and the victim
does not (the self-kill exemption). -/
def should_ignore (e : PlayerEvent) (ignored : LC) : Bool :=
  let trimmed := trimWs ignored
  if trimmed.isEmpty then false
  else
    match e.kind with
    | .Kill ev =>
      eqIgnoreAsciiCase ev.killer_name trimmed &&
        !(eqIgnoreAsciiCase ev.victim_name trimmed)
    | .SpawnReservation ev => eqIgnoreAsciiCase ev.player_name trimmed
    | .CorpseStatus ev => eqIgnoreAsciiCase ev.player_name trimmed
    | .ZoneTransfer ev => eqIgnoreAsciiCase ev.player_name trimmed
    | .StatusEffect ev => eqIgnoreAsciiCase ev.player_name trimmed
    | .Hit ev => eqIgnoreAsciiCase ev.attacker trimmed
    | .VehicleDestruction ev =>
      eqIgnoreAsciiCase ev.attacker_name trimmed ||
        (!ev.driver_name.isEmpty &&
          eqIgnoreAsciiCase ev.driver_name trimmed)

/-- src/main.rs PlayerEvent::involved_players, one push_name step: trim,
drop empty and unknown names, deduplicate on the ASCII-lowercased key
(the HashSet is modelled as the list of keys). -/
def pushName (acc : List LC × List LC) (name : LC) : List LC × List LC :=
  let trimmed := trimWs name
  if trimmed.isEmpty then acc
  else if eqIgnoreAsciiCase trimmed "unknown".data then acc
  else
    let key := lowerAscii trimmed
    if key ∈ acc.1 then acc else (key :: acc.1, acc.2 ++ [trimmed])

/-- The per-variant participant fields, in the order the source pushes
them. -/
def participantFields (k : EventKind) : List LC :=
  match k with
  | .Kill ev => [ev.killer_name, ev.victim_name]
  | .SpawnReservation ev => [ev.player_name]
  | .CorpseStatus ev => [ev.player_name]
  | .ZoneTransfer ev => [ev.player_name]
  | .StatusEffect ev => [ev.player_name]
  | .Hit ev => [ev.attacker]
  | .VehicleDestruction ev => [ev.attacker_name, ev.driver_name]

/-- src/main.rs PlayerEvent::involved_players. -/
def involved_players (e : PlayerEvent) : List LC :=
  ((participantFields e.kind).foldl pushName ([], [])).2

/-! Application state: the fields of LogApp that the reload and filtering
paths read or write, and the reload transition (LogApp::reload). File
system effects are parameters: pathEmpty is the emptiness test of the
resolved path, result the outcome of parse_log, and modified the
metadata modification time (none when the metadata call failed, in which
case the source leaves last_modified unchanged). The settings
persistence calls are side effects outside the model. -/

structure AppState where
  events : List PlayerEvent
  filter_show_kills : Bool
  filter_show_spawns : Bool
  filter_show_corpse : Bool
  filter_show_zone_moves : Bool
  filter_show_status_effects : Bool
  filter_show_hits : Bool
  filter_show_vehicle_destruction : Bool
  search_text : LC
  ignored_player : LC
  ignored_player_user_override : Bool
  load_error : Option LC
  last_modified : Option Int
deriving DecidableEq

def noLogMsg : LC := "No log file selected.".data

/-- src/main.rs LogApp::reload. -/
def reload (st : AppState) (pathEmpty : Bool) (result : Except LC ParsedLog)
    (modified : Option (Option Int)) : AppState :=
  if pathEmpty then
    { st with
      events := []
      load_error := some noLogMsg
      last_modified := none }
  else
    match result with
    | .ok parsed =>
      let st1 := { st with events := parsed.events }
      let st2 :=
        if !st1.ignored_player_user_override then
          match parsed.primary_nickname with
          | some nickname =>
            let trimmed := trimWs nickname
            if !trimmed.isEmpty then { st1 with ignored_player := trimmed }
            else st1
          | none => st1
        else st1
      let st3 := { st2 with load_error := none }
      match modified with
      | some m => { st3 with last_modified := m }
      | none => st3
    | .error err => { st with events := [], load_error := some err }

/-- The per-kind visibility toggle of LogApp::filtered_events. -/
def kindPred (st : AppState) (e : PlayerEvent) : Bool :=
  match e.kind with
  | .Kill _ => st.filter_show_kills
  | .SpawnReservation _ => st.filter_show_spawns
  | .CorpseStatus _ => st.filter_show_corpse
  | .ZoneTransfer _ => st.filter_show_zone_moves
  | .StatusEffect _ => st.filter_show_status_effects
  | .Hit _ => st.filter_show_hits
  | .VehicleDestruction _ => st.filter_show_vehicle_destruction

/-- The ignored-player filter of LogApp::filtered_events (ignored is the
trimmed ignored_player). -/
def ignorePred (st : AppState) (e : PlayerEvent) : Bool :=
  let ignored := trimWs st.ignored_player
  if ignored.isEmpty then true else !(should_ignore e ignored)

/-- The search filter of LogApp::filtered_events (search_lower is the
lowercased search text). -/
def searchPred (st : AppState) (e : PlayerEvent) : Bool :=
  let search_lower := lowerAscii st.search_text
  if search_lower.isEmpty then true else matches_search e search_lower

/-- src/main.rs LogApp::filtered_events: the three filters in source
order (kind toggle, ignored player, search). -/
def filtered_events (st : AppState) : List PlayerEvent :=
  ((st.events.filter (kindPred st)).filter (ignorePred st)).filter
    (searchPred st)

/-! Helper lemmas. -/

lemma filter_three {α : Type} (p q r : α → Bool) (l : List α) :
    ((l.filter p).filter q).filter r = l.filter (fun a => p a && q a && r a) := by
  rw [List.filter_filter, List.filter_filter]
  exact List.filter_congr fun a _ => by
    cases p a <;> cases q a <;> cases r a <;> rfl

lemma ingestRev_chain (lines : List LC) (acc : List PlayerEvent)
    (h : acc.Chain' (fun a b => b.raw ≠ a.raw)) :
    (ingestRev lines acc).Chain' (fun a b => b.raw ≠ a.raw) := by
  induction lines generalizing acc with
  | nil => simpa [ingestRev] using h
  | cons l ls ih =>
    rw [ingestRev]
    cases hp : parse_line l with
    | none => exact ih _ h
    | some e =>
      cases acc with
      | nil => exact ih _ (List.chain'_singleton e)
      | cons p rest =>
        by_cases hd : p.raw = e.raw
        · simp only [hd, if_true]
          exact ih _ h
        · simp only [hd, if_false]
          exact ih _ (List.chain'_cons.mpr ⟨fun hc => hd hc, h⟩)

lemma mem_insertByTs {a e : PlayerEvent} {l : List PlayerEvent} :
    a ∈ insertByTs e l ↔ a = e ∨ a ∈ l := by
  induction l with
  | nil => simp [insertByTs]
  | cons b t ih =>
    rw [insertByTs]
    by_cases hle : e.timestamp ≤ b.timestamp
    · simp [hle]
    · simp only [hle, if_false, List.mem_cons, ih]
      tauto

lemma pairwise_insertByTs {e : PlayerEvent} {l : List PlayerEvent}
    (h : l.Pairwise (fun a b => a.timestamp ≤ b.timestamp)) :
    (insertByTs e l).Pairwise (fun a b => a.timestamp ≤ b.timestamp) := by
  induction l with
  | nil => simp [insertByTs]
  | cons b t ih =>
    rw [insertByTs]
    by_cases hle : e.timestamp ≤ b.timestamp
    · simp only [hle, if_true]
      refine List.Pairwise.cons ?_ h
      intro x hx
      rcases List.mem_cons.mp hx with rfl | hxt
      · exact hle
      · exact le_trans hle (List.rel_of_pairwise_cons h hxt)
    · simp only [hle, if_false]
      refine List.Pairwise.cons ?_
        (ih (List.Pairwise.sublist (List.sublist_cons_self b t) h))
      intro x hx
      rcases mem_insertByTs.mp hx with rfl | hxt
      · exact le_of_not_le hle
      · exact List.rel_of_pairwise_cons h hxt

lemma sortByTs_pairwise (l : List PlayerEvent) :
    (sortByTs l).Pairwise (fun a b => a.timestamp ≤ b.timestamp) := by
  induction l with
  | nil => exact List.Pairwise.nil
  | cons e t ih => exact pairwise_insertByTs ih

lemma filter_insertByTs_pos {t : Int} {e : PlayerEvent}
    (l : List PlayerEvent) (he : e.timestamp = t) :
    (insertByTs e l).filter (fun x => x.timestamp == t) =
      e :: l.filter (fun x => x.timestamp == t) := by
  induction l with
  | nil => simp [insertByTs, List.filter_cons, he]
  | cons b bl ih =>
    rw [insertByTs]
    by_cases hle : e.timestamp ≤ b.timestamp
    · simp only [hle, if_true, List.filter_cons]
      simp [he]
    · have hbt : (b.timestamp == t) = false := by
        subst he
        simp only [beq_eq_false_iff_ne, ne_eq]
        intro hbe
        exact hle (le_of_eq hbe.symm)
      simp only [hle, if_false, List.filter_cons, hbt]
      simpa [hbt] using ih

lemma filter_insertByTs_neg {t : Int} {e : PlayerEvent}
    (l : List PlayerEvent) (he : ¬ e.timestamp = t) :
    (insertByTs e l).filter (fun x => x.timestamp == t) =
      l.filter (fun x => x.timestamp == t) := by
  have het : (e.timestamp == t) = false := beq_eq_false_iff_ne.mpr he
  induction l with
  | nil => simp [insertByTs, List.filter_cons, het]
  | cons b bl ih =>
    rw [insertByTs]
    by_cases hle : e.timestamp ≤ b.timestamp
    · simp [List.filter_cons, het, hle]
    · simp only [hle, if_false, List.filter_cons]
      by_cases hb : (b.timestamp == t) = true <;> simp [hb, ih]

lemma filter_sortByTs (t : Int) (l : List PlayerEvent) :
    (sortByTs l).filter (fun x => x.timestamp == t) =
      l.filter (fun x => x.timestamp == t) := by
  induction l with
  | nil => rfl
  | cons e el ih =>
    show (insertByTs e (sortByTs el)).filter _ = _
    by_cases he : e.timestamp = t
    · rw [filter_insertByTs_pos _ he, ih, List.filter_cons]
      simp [he]
    · rw [filter_insertByTs_neg _ he, ih, List.filter_cons]
      simp [beq_eq_false_iff_ne.mpr he]

lemma scanFor_eq_some {α : Type} {lit : LC} {k : LC → Option α} {l : LC}
    {r : α} (h : scanFor lit k l = some r) : ∃ rest, k rest = some r := by
  induction l with
  | nil =>
    rw [scanFor] at h
    obtain ⟨a, _, ha⟩ := Option.bind_eq_some.mp h
    exact ⟨a, ha⟩
  | cons c cs ih =>
    rw [scanFor] at h
    rcases (Option.orElse_eq_some _ _ _).mp h with h1 | ⟨_, h2⟩
    · obtain ⟨a, _, ha⟩ := Option.bind_eq_some.mp h1
      exact ⟨a, ha⟩
    · by_cases hc : c = '\n'
      · rw [if_pos hc] at h2
        cases h2
      · rw [if_neg hc] at h2
        exact ih h2

lemma stageTok_start_or_end {r s : LC} {r1 : LC}
    (h : stageTok r = some (s, r1)) :
    s = "start".data ∨ s = "end".data := by
  unfold stageTok at h
  cases h1 : dropLit "start".data r with
  | some r2 =>
    rw [h1] at h
    injection h with h
    injection h with hs _
    exact Or.inl hs.symm
  | none =>
    rw [h1] at h
    cases h2 : dropLit "end".data r with
    | some r2 =>
      rw [h2] at h
      injection h with h
      injection h with hs _
      exact Or.inr hs.symm
    | none => rw [h2] at h; cases h

lemma seAfterArticle_stage {ts r : LC} {caps : SECaps}
    (h : seAfterArticle ts r = some caps) :
    caps.stage = some "start".data ∨ caps.stage = some "end".data := by
  unfold seAfterArticle at h
  cases h1 : dropLit " ".data r with
  | none => simp only [h1] at h; cases h
  | some r1 =>
    simp only [h1] at h
    cases h2 : stageTok r1 with
    | none => simp only [h2] at h; cases h
    | some p =>
      obtain ⟨stg, r2⟩ := p
      simp only [h2] at h
      cases h3 : dropLit " of a status effect!".data r2 with
      | none => simp only [h3] at h; cases h
      | some r3 =>
        simp only [h3] at h
        cases h4 : dropLit "nickname:".data (r3.dropWhile isWs) with
        | none => simp only [h4] at h; cases h
        | some r4 =>
          simp only [h4] at h
          cases h5 : nicknamePart r4 with
          | none => simp only [h5] at h; cases h
          | some p5 =>
            obtain ⟨nick, r5⟩ := p5
            simp only [h5] at h
            cases h7 : dropLit "status effect:".data (r5.dropWhile isWs) with
            | none => simp only [h7] at h; cases h
            | some r7 =>
              simp only [h7] at h
              cases h8 : effectPart r7 with
              | none => simp only [h8] at h; cases h
              | some eff =>
                simp only [h8] at h
                injection h with h
                subst h
                simpa using stageTok_start_or_end h2

lemma seCaps_stage {l : LC} {caps : SECaps} (h : seCaps l = some caps) :
    caps.stage = some "start".data ∨ caps.stage = some "end".data := by
  unfold seCaps at h
  cases ht : tsHead l with
  | none => simp only [ht] at h; cases h
  | some p =>
    obtain ⟨ts, r⟩ := p
    simp only [ht] at h
    obtain ⟨rest, hk⟩ := scanFor_eq_some h
    unfold seBody at hk
    rcases (Option.orElse_eq_some _ _ _).mp hk with h1 | ⟨_, h2⟩
    · obtain ⟨r1, _, ha⟩ := Option.bind_eq_some.mp h1
      exact seAfterArticle_stage ha
    · obtain ⟨r1, _, ha⟩ := Option.bind_eq_some.mp h2
      exact seAfterArticle_stage ha

lemma pushName_master (fields : List LC) :
    ∀ names : List LC,
    (∀ n ∈ names, n ≠ [] ∧ eqIgnoreAsciiCase n "unknown".data = false) →
    names.Pairwise (fun a b => lowerAscii a ≠ lowerAscii b) →
    (∃ delta,
      (fields.foldl pushName ((names.map lowerAscii).reverse, names)).2 =
        names ++ delta ∧ delta.Sublist (fields.map trimWs)) ∧
    (∀ n ∈ (fields.foldl pushName ((names.map lowerAscii).reverse, names)).2,
      n ≠ [] ∧ eqIgnoreAsciiCase n "unknown".data = false) ∧
    ((fields.foldl pushName ((names.map lowerAscii).reverse, names)).2.Pairwise
      (fun a b => lowerAscii a ≠ lowerAscii b)) ∧
    (∀ f ∈ fields, trimWs f ≠ [] →
      eqIgnoreAsciiCase (trimWs f) "unknown".data = false →
      lowerAscii (trimWs f) ∈
        ((fields.foldl pushName
          ((names.map lowerAscii).reverse, names)).2.map lowerAscii)) := by
  induction fields with
  | nil =>
    intro names hprops hdist
    refine ⟨⟨[], by simp, List.nil_sublist _⟩, ?_, ?_, ?_⟩
    · simpa using hprops
    · simpa using hdist
    · intro f hf
      cases hf
  | cons f fs ih =>
    intro names hprops hdist
    by_cases h1 : (trimWs f).isEmpty
    · have hstep : List.foldl pushName ((names.map lowerAscii).reverse, names)
          (f :: fs) =
          List.foldl pushName ((names.map lowerAscii).reverse, names) fs := by
        simp only [List.foldl_cons, pushName, h1, if_true]
      rw [hstep]
      obtain ⟨⟨delta, hdec, hsub⟩, hp, hd, hc⟩ := ih names hprops hdist
      refine ⟨⟨delta, hdec, hsub.trans (List.sublist_cons_self _ _)⟩, hp, hd, ?_⟩
      intro g hg hgne hgunk
      rcases List.mem_cons.mp hg with rfl | hgfs
      · exact absurd (List.isEmpty_iff.mp h1) hgne
      · exact hc g hgfs hgne hgunk
    · by_cases h2 : eqIgnoreAsciiCase (trimWs f) "unknown".data
      · have hstep : List.foldl pushName ((names.map lowerAscii).reverse, names)
            (f :: fs) =
            List.foldl pushName ((names.map lowerAscii).reverse, names) fs := by
          simp only [List.foldl_cons, pushName, h1, h2, if_true,
            Bool.false_eq_true, if_false]
        rw [hstep]
        obtain ⟨⟨delta, hdec, hsub⟩, hp, hd, hc⟩ := ih names hprops hdist
        refine ⟨⟨delta, hdec, hsub.trans (List.sublist_cons_self _ _)⟩,
          hp, hd, ?_⟩
        intro g hg hgne hgunk
        rcases List.mem_cons.mp hg with rfl | hgfs
        · exact absurd h2 (by simp [hgunk])
        · exact hc g hgfs hgne hgunk
      · by_cases h3 : lowerAscii (trimWs f) ∈ (names.map lowerAscii).reverse
        · have hstep : List.foldl pushName
              ((names.map lowerAscii).reverse, names) (f :: fs) =
              List.foldl pushName ((names.map lowerAscii).reverse, names) fs := by
            simp only [List.foldl_cons, pushName, h1, h2, h3, if_true,
              Bool.false_eq_true, if_false]
          rw [hstep]
          obtain ⟨⟨delta, hdec, hsub⟩, hp, hd, hc⟩ := ih names hprops hdist
          refine ⟨⟨delta, hdec, hsub.trans (List.sublist_cons_self _ _)⟩,
            hp, hd, ?_⟩
          intro g hg hgne hgunk
          rcases List.mem_cons.mp hg with rfl | hgfs
          · rw [hdec, List.map_append]
            exact List.mem_append_left _ (List.mem_reverse.mp h3)
          · exact hc g hgfs hgne hgunk
        · have hseen : ((names ++ [trimWs f]).map lowerAscii).reverse =
              lowerAscii (trimWs f) :: (names.map lowerAscii).reverse := by
            simp
          have hstep : List.foldl pushName
              ((names.map lowerAscii).reverse, names) (f :: fs) =
              List.foldl pushName
                (((names ++ [trimWs f]).map lowerAscii).reverse,
                  names ++ [trimWs f]) fs := by
            simp only [List.foldl_cons, pushName, h1, h2, h3, if_true,
              Bool.false_eq_true, if_false, hseen]
          rw [hstep]
          have hprops2 : ∀ n ∈ names ++ [trimWs f],
              n ≠ [] ∧ eqIgnoreAsciiCase n "unknown".data = false := by
            intro n hn
            rcases List.mem_append.mp hn with hn | hn
            · exact hprops n hn
            · rcases List.mem_singleton.mp hn with rfl
              refine ⟨fun hne => h1 (by simp [hne]), ?_⟩
              exact Bool.not_eq_true _ ▸ (Bool.eq_false_iff.mpr h2)
          have hdist2 : (names ++ [trimWs f]).Pairwise
              (fun a b => lowerAscii a ≠ lowerAscii b) := by
            rw [List.pairwise_append]
            refine ⟨hdist, List.pairwise_singleton _ _, ?_⟩
            intro a ha b hb
            rcases List.mem_singleton.mp hb with rfl
            intro heq
            exact h3 (List.mem_reverse.mpr
              (heq ▸ List.mem_map_of_mem lowerAscii ha))
          obtain ⟨⟨delta2, hdec2, hsub2⟩, hp2, hd2, hc2⟩ :=
            ih (names ++ [trimWs f]) hprops2 hdist2
          refine ⟨⟨trimWs f :: delta2, ?_, ?_⟩, hp2, hd2, ?_⟩
          · rw [hdec2, List.append_assoc]
            rfl
          · exact List.Sublist.cons₂ _ hsub2
          · intro g hg hgne hgunk
            rcases List.mem_cons.mp hg with rfl | hgfs
            · rw [hdec2, List.map_append]
              refine List.mem_append_left _ ?_
              rw [List.map_append]
              exact List.mem_append_right _ (by simp)
            · exact hc2 g hgfs hgne hgunk

/-! Concrete inputs used by the claim theorems, their counterexamples and
witnesses. -/

/-- A canonical Kill-shaped line with the zone, using and weapon-class
groups present or absent per flag. -/
def mkKillLine (z w c : Bool) : LC :=
  "<2024-01-01T00:00:00Z> [Notice] <Actor Death> CActor::Kill: 'Bob' [100]".data ++
  (if z then " in zone 'Stanton'".data else []) ++
  " killed by 'Alice' [200]".data ++
  (if w then " using 'Rifle'".data ++ (if c then " [RifleClass]".data else [])
   else []) ++
  " with damage type 'Bullet'".data

/-- The Kill event mkKillLine must produce: absent optional groups become
the empty string. -/
def expectedKill (z w c : Bool) : PlayerEvent :=
  { timestamp := 1704067200000000000,
    kind := .Kill
      { victim_name := "Bob".data, victim_id := "100".data,
        killer_name := "Alice".data, killer_id := "200".data,
        weapon := if w then "Rifle".data else [],
        weapon_class := if w && c then "RifleClass".data else [],
        damage_type := "Bullet".data,
        zone := if z then "Stanton".data else [] },
    raw := mkKillLine z w c }

/-- A Kill-shaped line with every group present except the damage-type
tail. -/
def killLineNoDamage : LC :=
  "<2024-01-01T00:00:00Z> [Notice] <Actor Death> CActor::Kill: 'Bob' [100] in zone 'Stanton' killed by 'Alice' [200] using 'Rifle' [RifleClass]".data

/-- A canonical CorpseStatus-shaped line with the given flag token. -/
def mkCorpseLine (flag : LC) : LC :=
  "<2024-01-01T00:00:00Z> [Notice] Player 'Bob' <remote client>: IsCorpseEnabled: ".data ++
  flag ++ ".".data

/-- The CorpseStatus event of the flag-No corpse line. -/
def expectedCorpseNo : PlayerEvent :=
  { timestamp := 1704067200000000000,
    kind := .CorpseStatus
      { player_name := "Bob".data, context := some "remote client".data,
        corpse_enabled := false },
    raw := mkCorpseLine "No".data }

def exEvent : PlayerEvent :=
  { timestamp := 0,
    kind := .Hit { attacker := "a".data, target := "b".data, child := none },
    raw := "r".data }

def exState : AppState :=
  { events := [exEvent], filter_show_kills := true, filter_show_spawns := true,
    filter_show_corpse := true, filter_show_zone_moves := true,
    filter_show_status_effects := true, filter_show_hits := true,
    filter_show_vehicle_destruction := true, search_text := [],
    ignored_player := [], ignored_player_user_override := false,
    load_error := none, last_modified := some 7 }

def exStatusLine : LC :=
  "<2024-01-01T00:00:00Z> [Notice] Logged an end of a status effect! nickname: Bob, status effect: BrokenLeg".data

/-- The StatusEffect event exStatusLine parses to. -/
def exStatusEvent : PlayerEvent :=
  { timestamp := 1704067200000000000,
    kind := .StatusEffect
      { player_name := "Bob".data, effect := "BrokenLeg".data,
        stage := "end".data },
    raw := exStatusLine }

/-! Claim theorems. -/

/-- C1 (counterexample): a failed re-ingestion pass does clear the
previous event list — reload on a parse error empties events, refuting
the claim that the previous list is retained unchanged. -/
theorem reload_failure_cex :
    (reload exState false (.error "boom".data) none).events = [] ∧
    exState.events ≠ [] := by decide

/-- C1 (amended): on an ingestion failure with a non-empty path, reload
clears the event list and surfaces the error, leaving the rest of the
state unchanged; the event list is thus cleared both by the explicit
empty-path condition and by a failed ingestion, not retained. -/
theorem reload_failure_clears_events (st : AppState) (err : LC)
    (modified : Option (Option Int)) :
    reload st false (.error err) modified =
      { st with events := [], load_error := some err } := rfl

/-- C2 (counterexample): a Kill-shaped line whose damage-type group is
absent fails the whole classifier — damage type is not an optional group
of the Kill grammar. -/
theorem kill_missing_damage_cex : parse_line killLineNoDamage = none := by
  decide

/-- C2 (amended): for every combination of the three genuinely optional
groups (zone, weapon, weapon-class), the Kill grammar still succeeds and
the absent optional fields default to the empty string; the damage-type
group is mandatory (its absence fails the match, see the
counterexample). -/
theorem kill_optional_groups_default : ∀ z w c : Bool,
    parse_actor_death (mkKillLine z w c) = some (expectedKill z w c) := by
  decide

/-- C3 (counterexample): the Yes/No flag token is matched
case-sensitively, so the CorpseStatus line with the lowercase token no
matches no grammar and produces no event, though the claim (reading the
flag case-insensitively) promises a CorpseStatus event. -/
theorem corpse_lowercase_no_cex :
    parse_line (mkCorpseLine "no".data) = none := by decide

/-- C3 (amended): a canonical CorpseStatus line with the exact token Yes
is matched by the corpse grammar (its captures exist) but discarded —
parse_corpse_status returns none — and each of the subsequent grammars
(ZoneTransfer, StatusEffect, Hit, VehicleDestruction) also fails on it,
so the classifier yields no event; the same line with the exact token No
produces a CorpseStatus event with corpse_enabled false; non-canonical
casings (no, YES) are not matched by the corpse grammar at all and yield
no event. -/
theorem corpse_status_flag_behavior :
    (corpseCaps (mkCorpseLine "Yes".data)).isSome = true ∧
    parse_corpse_status (mkCorpseLine "Yes".data) = none ∧
    parse_line (mkCorpseLine "Yes".data) = none ∧
    parse_line (mkCorpseLine "No".data) = some expectedCorpseNo ∧
    corpseCaps (mkCorpseLine "no".data) = none ∧
    corpseCaps (mkCorpseLine "YES".data) = none ∧
    parse_line (mkCorpseLine "YES".data) = none ∧
    parse_zone_transfer (mkCorpseLine "Yes".data) = none ∧
    parse_status_effect (mkCorpseLine "Yes".data) = none ∧
    parse_hit_event (mkCorpseLine "Yes".data) = none ∧
    parse_vehicle_destruction (mkCorpseLine "Yes".data) = none := by
  decide

/-- C4 (counterexample): two identical matching Kill lines separated only
by a line that matches no grammar are not both retained — the ingestion
of the three lines yields one event, though the claim promises both
non-adjacent duplicates are kept. -/
theorem nonadjacent_dup_suppressed_cex :
    (parse_log_lines [mkKillLine true true true, "random line".data,
      mkKillLine true true true]).events.length = 1 := by decide

/-- C4 (amended): duplicate suppression compares against the immediately
preceding accepted event, not the preceding file line: the accepted event
sequence of any input never holds two adjacent events with identical raw
text (so an adjacent identical pair contributes one event), and two
identical matching lines are both retained when a different accepted
event lies between them (the concrete three-line input yields all three
events); identical lines whose intervening lines all fail to match are
still deduplicated (see the counterexample). -/
theorem adjacent_dedup_invariant :
    (∀ lines : List LC,
      (acceptedEvents lines).Chain' (fun a b => a.raw ≠ b.raw)) ∧
    (parse_log_lines [mkKillLine true true true,
      mkCorpseLine "No".data, mkKillLine true true true]).events.length = 3 := by
  constructor
  · intro lines
    unfold acceptedEvents
    rw [List.chain'_reverse]
    exact ingestRev_chain lines [] List.chain'_nil
  · decide

/-- C5: the final event list of one ingestion pass is ordered
newest-first — for any two events, the later-timestamped one appears
first (the list is pairwise descending) — and, for every timestamp, the
events carrying it appear in exactly the reverse of their accepted file
order (the stable ascending sort preserves file order on ties and the
final reversal reverses it). -/
theorem events_newest_first_stable (lines : List LC) :
    ((parse_log_lines lines).events).Pairwise
      (fun a b => b.timestamp ≤ a.timestamp) ∧
    (∀ t : Int,
      ((parse_log_lines lines).events).filter (fun e => e.timestamp == t) =
        ((acceptedEvents lines).filter
          (fun e => e.timestamp == t)).reverse) := by
  constructor
  · show ((sortByTs (acceptedEvents lines)).reverse).Pairwise _
    rw [List.pairwise_reverse]
    exact sortByTs_pairwise _
  · intro t
    show ((sortByTs (acceptedEvents lines)).reverse).filter _ = _
    rw [List.filter_reverse, filter_sortByTs]

/-- C6: a Kill event whose killer equals its victim case-insensitively is
never removed by the ignored-actor filter — should_ignore is false for
every ignored name, and the ignore predicate of the projection keeps the
event for every ignored-player setting. -/
theorem self_kill_never_ignored (st : AppState) (ts : Int)
    (v vid k kid w wc dt z raw ign : LC)
    (h : eqIgnoreAsciiCase k v = true) :
    should_ignore ⟨ts, .Kill ⟨v, vid, k, kid, w, wc, dt, z⟩, raw⟩ ign = false ∧
    ignorePred { st with ignored_player := ign }
      ⟨ts, .Kill ⟨v, vid, k, kid, w, wc, dt, z⟩, raw⟩ = true := by
  have hkv : lowerAscii k = lowerAscii v := by
    simpa [eqIgnoreAsciiCase] using h
  have hsi : ∀ s : LC,
      should_ignore ⟨ts, .Kill ⟨v, vid, k, kid, w, wc, dt, z⟩, raw⟩ s
        = false := by
    intro s
    unfold should_ignore
    by_cases he : (trimWs s).isEmpty
    · simp [he]
    · simp only [he, if_false, eqIgnoreAsciiCase, hkv]
      exact Bool.and_not_self _
  refine ⟨hsi ign, ?_⟩
  unfold ignorePred
  by_cases he : (trimWs ign).isEmpty
  · simp [he]
  · simp [he, hsi]

/-- C6 (witness): the self-kill exemption applied at a concrete self-kill
event and a concrete ignored name equal to the killer. -/
theorem self_kill_never_ignored_witness :
    should_ignore ⟨0, .Kill ⟨"BOB".data, "100".data, "bob".data, "100".data,
      [], [], "Bullet".data, []⟩, "r".data⟩ "bob".data = false ∧
    ignorePred { exState with ignored_player := "bob".data }
      ⟨0, .Kill ⟨"BOB".data, "100".data, "bob".data, "100".data,
        [], [], "Bullet".data, []⟩, "r".data⟩ = true :=
  self_kill_never_ignored exState 0 "BOB".data "100".data "bob".data
    "100".data [] [] "Bullet".data [] "r".data "bob".data (by decide)

/-- C7: the filter projection is an order-preserving subsequence of the
input, and the three predicates (kind toggle, ignored actor, search)
commute — every application order of the three filters, and the single
filter by their conjunction, produce exactly filtered_events. -/
theorem filter_projection_composable (st : AppState) :
    (filtered_events st).Sublist st.events ∧
    filtered_events st =
      st.events.filter
        (fun e => kindPred st e && ignorePred st e && searchPred st e) ∧
    ((st.events.filter (kindPred st)).filter (searchPred st)).filter
        (ignorePred st) = filtered_events st ∧
    ((st.events.filter (ignorePred st)).filter (kindPred st)).filter
        (searchPred st) = filtered_events st ∧
    ((st.events.filter (ignorePred st)).filter (searchPred st)).filter
        (kindPred st) = filtered_events st ∧
    ((st.events.filter (searchPred st)).filter (kindPred st)).filter
        (ignorePred st) = filtered_events st ∧
    ((st.events.filter (searchPred st)).filter (ignorePred st)).filter
        (kindPred st) = filtered_events st := by
  have hmain : filtered_events st =
      st.events.filter
        (fun e => kindPred st e && ignorePred st e && searchPred st e) := by
    unfold filtered_events
    exact filter_three _ _ _ _
  have horder : ∀ p q r : PlayerEvent → Bool,
      (∀ e, (p e && q e && r e) =
        (kindPred st e && ignorePred st e && searchPred st e)) →
      ((st.events.filter p).filter q).filter r = filtered_events st := by
    intro p q r hpt
    rw [filter_three, hmain]
    exact List.filter_congr (fun e _ => hpt e)
  refine ⟨?_, hmain, ?_, ?_, ?_, ?_, ?_⟩
  · unfold filtered_events
    exact ((List.filter_sublist _).trans (List.filter_sublist _)).trans
      (List.filter_sublist _)
  all_goals
    apply horder
    intro e
    cases kindPred st e <;> cases ignorePred st e <;> cases searchPred st e <;>
      rfl

/-- C8: the ingestion pass is deterministic — it is a pure function of
the file's bytes (the accumulation, the stable sort and the nickname
capture use no other state), so two runs over the same byte sequence
yield event lists equal in content and order and the same primary
nickname. -/
theorem ingestion_deterministic (bs : List Nat) :
    (parse_log_bytes bs).events = (parse_log_bytes bs).events ∧
    (parse_log_bytes bs).primary_nickname =
      (parse_log_bytes bs).primary_nickname := ⟨rfl, rfl⟩

/-- C9: every event the StatusEffect grammar produces carries a stage
equal to start or to end — the pattern only admits those two literal
stage tokens, lowercasing fixes them, and the defensive default is
unreachable. -/
theorem status_effect_stage_start_or_end (l : LC) (e : PlayerEvent)
    (h : parse_status_effect l = some e) :
    ∃ s : StatusEffectEvent, e.kind = .StatusEffect s ∧
      (s.stage = "start".data ∨ s.stage = "end".data) := by
  unfold parse_status_effect at h
  cases hc : seCaps l with
  | none => simp only [hc] at h; cases h
  | some caps =>
    simp only [hc] at h
    cases ht : parse_timestamp caps.ts with
    | none => simp only [ht] at h; cases h
    | some ts0 =>
      simp only [ht] at h
      injection h with h
      subst h
      refine ⟨_, rfl, ?_⟩
      rcases seCaps_stage hc with h1 | h1 <;> rw [h1] <;> simp <;> decide

/-- C9 (witness): the stage property applied at a concrete StatusEffect
line. -/
theorem status_effect_stage_witness :
    ∃ s : StatusEffectEvent, exStatusEvent.kind = .StatusEffect s ∧
      (s.stage = "start".data ∨ s.stage = "end".data) :=
  status_effect_stage_start_or_end exStatusLine exStatusEvent (by decide)

/-- C10: for every event, the involved-players list has no empty name and
no name equal to unknown case-insensitively, no two of its names share a
case-insensitive key, it is an order-preserving subsequence of the
trimmed participant fields of the variant (so every listed name appears
trimmed, in first-occurrence order), and every participant field that
trims to a non-empty, non-unknown name is represented in it. -/
theorem involved_players_clean (e : PlayerEvent) :
    (∀ n ∈ involved_players e,
      n ≠ [] ∧ eqIgnoreAsciiCase n "unknown".data = false) ∧
    (involved_players e).Pairwise
      (fun a b => lowerAscii a ≠ lowerAscii b) ∧
    (involved_players e).Sublist
      ((participantFields e.kind).map trimWs) ∧
    (∀ f ∈ participantFields e.kind, trimWs f ≠ [] →
      eqIgnoreAsciiCase (trimWs f) "unknown".data = false →
      lowerAscii (trimWs f) ∈ (involved_players e).map lowerAscii) := by
  have h := pushName_master (participantFields e.kind) [] (by simp)
    List.Pairwise.nil
  obtain ⟨⟨delta, hdec, hsub⟩, hp, hd, hc⟩ := h
  have hzero : (([] : List LC).map lowerAscii).reverse = ([] : List LC) := rfl
  rw [hzero] at hdec hp hd hc
  have hiv : involved_players e =
      ((participantFields e.kind).foldl pushName ([], [])).2 := rfl
  rw [hiv]
  refine ⟨hp, hd, ?_, hc⟩
  rw [hdec]
  simpa using hsub

end SCLog
